import Mathlib

/-!
Verification development for the output-validation guard of the Auto-Claude
repository.  The Python implementation referenced by the repository's guide
(`apps/backend/security/output_validation/`) is not part of the source tree;
the definitions below are therefore modelled from the specification and from
the repository's guide `src/guides/output-validation.md`, which documents the
data model, the decision pipeline, the configuration schema and the override
token store.  Every such definition carries a doc comment saying what it
models.  Machine behaviour (pattern matching, glob matching, severity
aggregation, config merging, token lookup, report grouping) is embedded as
executable Lean functions, and the specification's claims are settled as
theorems about those functions.
-/

/-- Severity of a rule, ordered LOW < MEDIUM < HIGH < CRITICAL. -/
inductive Severity where
  | LOW
  | MEDIUM
  | HIGH
  | CRITICAL
deriving DecidableEq

/-- Numeric rank of a severity, used for taking maxima. -/
def Severity.rank : Severity → Nat
  | .LOW => 0
  | .MEDIUM => 1
  | .HIGH => 2
  | .CRITICAL => 3

/-- Priority label of a rule (P0 most critical). -/
inductive Priority where
  | P0
  | P1
  | P2
  | P3
deriving DecidableEq

/-- Tool types protected by the validator. -/
inductive ToolType where
  | bash
  | write
  | edit
  | web_fetch
  | web_search
deriving DecidableEq

/-- Pattern kind of a rule: compiled regex or case-insensitive literal. -/
inductive PatternType where
  | regex
  | literal
deriving DecidableEq

/-- Which part of an invocation a rule inspects. -/
inductive RuleContext where
  | command
  | file_content
  | file_path
  | all
deriving DecidableEq

/-- Modelled from the spec: a validation rule of the rule catalog
(`Rule` in §3 of the spec; rule properties table of the guide). -/
structure Rule where
  rule_id : String
  name : String
  description : String
  pattern : String
  pattern_type : PatternType
  severity : Severity
  priority : Priority
  tool_types : List ToolType
  context : RuleContext
  message : String
  suggestions : List String
  category : String
  enabled : Bool
deriving DecidableEq

/-- Modelled from the spec: a single agent tool invocation (`ToolInvocation`
in §3: `command` for bash, `content`+`path` for write/edit, `url`/`query`
for the web tools). -/
inductive ToolInvocation where
  | bash (command : String)
  | write (path : String) (content : String)
  | edit (path : String) (content : String)
  | web_fetch (url : String)
  | web_search (query : String)
deriving DecidableEq

/-- The tool type of an invocation. -/
def toolTypeOf : ToolInvocation → ToolType
  | .bash _ => .bash
  | .write _ _ => .write
  | .edit _ _ => .edit
  | .web_fetch _ => .web_fetch
  | .web_search _ => .web_search

/-- The target path of an invocation, when it has one (write/edit only). -/
def pathOf : ToolInvocation → Option String
  | .write p _ => some p
  | .edit p _ => some p
  | _ => none

/-- The file content of an invocation, when it has one (write/edit only). -/
def contentOf : ToolInvocation → Option String
  | .write _ c => some c
  | .edit _ c => some c
  | _ => none

/-- The command-like text of an invocation: the shell command for bash, the
url or query for the web tools. -/
def commandTextOf : ToolInvocation → Option String
  | .bash c => some c
  | .web_fetch u => some u
  | .web_search q => some q
  | _ => none

/-- Character codes of a string.  All string processing below works on
`List Nat` so that every function reduces inside the kernel. -/
def codes (s : String) : List Nat := s.toList.map Char.toNat

/-- ASCII lower-casing of one character code. -/
def lowerCode (n : Nat) : Nat := if 65 ≤ n ∧ n ≤ 90 then n + 32 else n

/-- Substring test on code lists. -/
def containsCodes (needle : List Nat) (hay : List Nat) : Bool :=
  match hay with
  | [] => needle.isEmpty
  | c :: t => needle.isPrefixOf (c :: t) || containsCodes needle t

/-- Case-sensitive literal substring test (used by `command:` scopes). -/
def containsLit (needle hay : String) : Bool :=
  containsCodes (codes needle) (codes hay)

/-- Case-insensitive literal substring test (used by `literal` rules,
stage 4 of the pipeline). -/
def containsCI (needle hay : String) : Bool :=
  containsCodes ((codes needle).map lowerCode) ((codes hay).map lowerCode)

/-- Splits a glob character class at its closing bracket: for the characters
after `[`, returns the class members and the rest of the pattern. -/
def classSplit : List Char → Option (List Char × List Char)
  | [] => none
  | c :: rest =>
    if c = ']' then some ([], rest)
    else
      match classSplit rest with
      | some (cs, r) => some (c :: cs, r)
      | none => none

/-- Modelled from the spec: glob matching for `allowed_paths` and `file:`
scopes.  Supported forms per the guide: `**` (any directories), `*` (any
characters within one path segment), `?` (one character), `[abc]`, `[!abc]`.
Structural recursion on an explicit fuel so the kernel can evaluate it; each
step shrinks pattern-plus-string, so `globMatch` always supplies enough. -/
def globMatchFuel : Nat → List Char → List Char → Bool
  | 0, _, _ => false
  | _ + 1, [], [] => true
  | _ + 1, [], _ :: _ => false
  | f + 1, '*' :: '*' :: p, s =>
      globMatchFuel f p s ||
        (match s with
         | [] => false
         | _ :: s2 => globMatchFuel f ('*' :: '*' :: p) s2)
  | f + 1, '*' :: p, s =>
      globMatchFuel f p s ||
        (match s with
         | [] => false
         | c :: s2 => (!(c == '/')) && globMatchFuel f ('*' :: p) s2)
  | _ + 1, '?' :: _, [] => false
  | f + 1, '?' :: p, c :: s2 => (!(c == '/')) && globMatchFuel f p s2
  | f + 1, '[' :: '!' :: p, c :: s2 =>
      (match classSplit p with
       | some (cs, rest) => (!(cs.any (fun d => d == c))) && globMatchFuel f rest s2
       | none => false)
  | f + 1, '[' :: p, c :: s2 =>
      (match classSplit p with
       | some (cs, rest) => (cs.any (fun d => d == c)) && globMatchFuel f rest s2
       | none => (c == '[') && globMatchFuel f p s2)
  | f + 1, c :: p, c2 :: s2 => (c == c2) && globMatchFuel f p s2
  | _ + 1, _ :: _, [] => false

/-- Glob matching on strings (pattern, then path). -/
def globMatch (pat path : String) : Bool :=
  globMatchFuel (pat.toList.length + path.toList.length + 1) pat.toList path.toList

example : globMatch "tests/**" "tests/fixtures/danger.sh" = true := by decide
example : globMatch "tests/**" "src/main.py" = false := by decide
example : globMatch "test_*.py" "test_foo.py" = true := by decide
example : globMatch "test_*.py" "tests/test_foo.py" = false := by decide
example : globMatch "*.tmp" "a.tmp" = true := by decide
example : globMatch "[abc]x" "bx" = true := by decide
example : globMatch "[!abc]x" "dx" = true := by decide
example : globMatch "[!abc]x" "ax" = false := by decide
example : globMatch "a?c" "abc" = true := by decide
example : containsCI "RM -RF" "sudo rm -rf /etc" = true := by decide
example : containsLit "drop" "DROP TABLE" = false := by decide

/-- Modelled from the spec: the per-project validation configuration
(`ValidationConfig` in §3 of the spec and the configuration schema of the
guide). -/
structure ValidationConfig where
  enabled : Bool
  strict_mode : Bool
  allowed_paths : List String
  disabled_rules : List String
  severity_overrides : List (String × Severity)
  custom_rules : List Rule
deriving DecidableEq

/-- Scope of an override token: `all`, `file:<glob>` or `command:<pattern>`. -/
inductive OverrideScope where
  | all
  | file (glob : String)
  | command (pat : String)
deriving DecidableEq

/-- Modelled from the spec: a scoped, expiring bypass credential
(`OverrideToken` in §3).  Time is modelled in whole minutes. -/
structure OverrideToken where
  token_id : String
  rule_id : String
  scope : OverrideScope
  created_at : Nat
  expires_at : Option Nat
  max_uses : Nat
  use_count : Nat
  creator : String
  reason : String
deriving DecidableEq

/-- The decision produced for one invocation. -/
inductive Decision where
  | allowed
  | warned
  | blocked
deriving DecidableEq

/-- Modelled from the spec: the result handed back to the agent runtime
(upstream contract of §6: decision, matched rules, severity, concatenated
messages and suggestions), plus the recorded reason and override id. -/
structure ValidationResult where
  decision : Decision
  matched_rules : List String
  severity : Option Severity
  message : String
  suggestions : List String
  reason : Option String
  override_token_id : Option String
deriving DecidableEq

/-- Larger of two severities. -/
def sevMax (a b : Severity) : Severity := if a.rank ≤ b.rank then b else a

/-- Maximum severity of a starting severity and a list of severities. -/
def maxSevList (s : Severity) (l : List Severity) : Severity := l.foldl sevMax s

/-- The result recorded when nothing fired. -/
def allowedResult : ValidationResult :=
  { decision := .allowed, matched_rules := [], severity := none, message := "",
    suggestions := [], reason := none, override_token_id := none }

/-- The result recorded by the path-exemption stage. -/
def pathExemptResult : ValidationResult :=
  { allowedResult with reason := some "path-exempt" }

/-- Modelled from the spec: stage 5 of the pipeline (§4.4).  No fired rule
gives `allowed`; otherwise the maximum severity decides: CRITICAL/HIGH give
`blocked`, MEDIUM/LOW give `warned` unless strict mode escalates them. -/
def aggregate (strict : Bool) (fired : List Rule) : ValidationResult :=
  match fired with
  | [] => allowedResult
  | r :: rest =>
    let m := maxSevList r.severity (rest.map Rule.severity)
    { decision :=
        if m = Severity.CRITICAL ∨ m = Severity.HIGH then Decision.blocked
        else if strict then Decision.blocked else Decision.warned,
      matched_rules := (r :: rest).map Rule.rule_id,
      severity := some m,
      message := String.intercalate " | " ((r :: rest).map Rule.message),
      suggestions := ((r :: rest).map Rule.suggestions).flatten,
      reason := none,
      override_token_id := none }

/-- Modelled from the spec: `get_active_rules(rules, tool_type)` of the rule
catalog (§4.2): keeps enabled rules whose `tool_types` contains the type. -/
def get_active_rules (rules : List Rule) (tt : ToolType) : List Rule :=
  rules.filter (fun r => r.enabled && r.tool_types.any (fun t => decide (t = tt)))

/-- The texts a rule inspects for a given invocation, by rule context
(stage 4 of §4.4; the url/query of the web tools plays the command role). -/
def contextTexts (ctx : RuleContext) (inv : ToolInvocation) : List String :=
  match ctx with
  | .command => (commandTextOf inv).toList
  | .file_content => (contentOf inv).toList
  | .file_path => (pathOf inv).toList
  | .all => (commandTextOf inv).toList ++ (contentOf inv).toList ++ (pathOf inv).toList

/-- Modelled from the spec: one pattern test of stage 4 (§4.4): `literal`
is a case-insensitive substring test, `regex` delegates to the compiled
regex engine, passed in as the oracle `rs` (pattern, then text). -/
def patternFires (rs : String → String → Bool) (r : Rule) (text : String) : Bool :=
  match r.pattern_type with
  | .literal => containsCI r.pattern text
  | .regex => rs r.pattern text

/-- A rule fires on an invocation when its pattern matches one of the texts
selected by its context. -/
def ruleFires (rs : String → String → Bool) (r : Rule) (inv : ToolInvocation) : Bool :=
  (contextTexts r.context inv).any (patternFires rs r)

/-- The active rules that fire on this invocation (stage 4 collection). -/
def firingRules (rs : String → String → Bool) (rules : List Rule)
    (inv : ToolInvocation) : List Rule :=
  (get_active_rules rules (toolTypeOf inv)).filter (fun r => ruleFires rs r inv)

/-- Modelled from the spec: token validity (§3 invariant): valid iff
`(expires_at is null OR now < expires_at) AND (max_uses == 0 OR use_count <
max_uses)`. -/
def tokenValid (t : OverrideToken) (now : Nat) : Bool :=
  (match t.expires_at with
   | none => true
   | some e => decide (now < e))
  && (decide (t.max_uses = 0) || decide (t.use_count < t.max_uses))

/-- Modelled from the spec: scope matching of `find_applicable` (§4.3):
`all` always matches, `file:<glob>` matches an invocation targeting a path
satisfying the glob, `command:<pattern>` matches a bash invocation whose
command contains the pattern as a literal substring. -/
def scopeMatches (sc : OverrideScope) (inv : ToolInvocation) : Bool :=
  match sc with
  | .all => true
  | .file g =>
    match pathOf inv with
    | some p => globMatch g p
    | none => false
  | .command pat =>
    match inv with
    | .bash c => containsLit pat c
    | _ => false

/-- Modelled from the spec: `find_applicable(project_dir, rule_id,
invocation)` of the token store (§4.3): first token of the rule that is
valid and whose scope matches. -/
def find_applicable (store : List OverrideToken) (rid : String)
    (inv : ToolInvocation) (now : Nat) : Option OverrideToken :=
  store.find? (fun t => decide (t.rule_id = rid) && tokenValid t now && scopeMatches t.scope inv)

/-- Modelled from the spec: `consume(token)` (§4.3): increments the use
count of the token with the given id. -/
def consume (store : List OverrideToken) (tid : String) : List OverrideToken :=
  store.map (fun t => if t.token_id = tid then { t with use_count := t.use_count + 1 } else t)

/-- The override-stage hits for an invocation: for each firing rule with an
applicable token, the pair (rule id, token id). -/
def overrideHits (rs : String → String → Bool) (store : List OverrideToken)
    (rules : List Rule) (inv : ToolInvocation) (now : Nat) : List (String × String) :=
  (firingRules rs rules inv).filterMap (fun r =>
    (find_applicable store r.rule_id inv now).map (fun t => (r.rule_id, t.token_id)))

/-- Consumes every token used by the override stage. -/
def consumeAll (store : List OverrideToken) (hits : List (String × String)) :
    List OverrideToken :=
  hits.foldl (fun st p => consume st p.2) store

/-- The firing rules that were not overridden (excluded from stage 4). -/
def remainingRules (rs : String → String → Bool) (store : List OverrideToken)
    (rules : List Rule) (inv : ToolInvocation) (now : Nat) : List Rule :=
  (firingRules rs rules inv).filter
    (fun r => (overrideHits rs store rules inv now).all (fun p => !(decide (p.1 = r.rule_id))))

/-- Whether the invocation's target path matches an `allowed_paths` glob. -/
def pathExempt (config : ValidationConfig) (inv : ToolInvocation) : Bool :=
  match pathOf inv with
  | some p => config.allowed_paths.any (fun g => globMatch g p)
  | none => false

/-- Modelled from the spec: the decision pipeline of §4.4.  Stage 1 checks
`enabled`; stage 2 consumes an applicable override token per firing rule and
excludes those rules; stage 3 short-circuits to `allowed`/`path-exempt` on an
`allowed_paths` match; stages 4-5 aggregate the remaining firing rules.
Returns the decision and the updated token store. -/
def validate (rs : String → String → Bool) (config : ValidationConfig)
    (rules : List Rule) (store : List OverrideToken) (now : Nat)
    (inv : ToolInvocation) : ValidationResult × List OverrideToken :=
  if config.enabled = false then (allowedResult, store)
  else if pathExempt config inv = true then
    (pathExemptResult, consumeAll store (overrideHits rs store rules inv now))
  else
    ({ aggregate config.strict_mode (remainingRules rs store rules inv now) with
        override_token_id := (overrideHits rs store rules inv now).head?.map Prod.snd },
     consumeAll store (overrideHits rs store rules inv now))

/-- Applies a `severity_overrides` entry to a rule by id: the override
changes the severity only, never pattern or category (§4.2). -/
def applySevOverride (ov : List (String × Severity)) (b : Rule) : Rule :=
  match (ov.find? (fun (p : String × Severity) => decide (p.1 = b.rule_id))).map Prod.snd with
  | some s => { b with severity := s }
  | none => b

/-- Modelled from the spec: `merge_with_defaults(config, builtins)` (§4.2):
custom rules replace built-ins of the same id, `severity_overrides` change
severity only, and ids in `disabled_rules` are excluded from the effective
set (the spec's §8 guarantees a disabled id is never cited at all). -/
def merge_with_defaults (config : ValidationConfig) (builtins : List Rule) : List Rule :=
  let base := builtins.filter
    (fun b => !(config.custom_rules.any (fun c => decide (c.rule_id = b.rule_id))))
  ((base.map (applySevOverride config.severity_overrides))
    ++ config.custom_rules).filter
    (fun r => !(config.disabled_rules.any (fun d => decide (d = r.rule_id))))

/-- Modelled from the spec: a custom rule as it appears in the project file,
with the optional fields of the guide's rule-properties table still absent
when omitted (`pattern_type`, `severity`, `priority`, `context`, `enabled`). -/
structure RawRule where
  rule_id : String
  name : String
  description : String
  pattern : String
  pattern_type : Option PatternType
  severity : Option Severity
  priority : Option Priority
  tool_types : List ToolType
  context : Option RuleContext
  message : String
  suggestions : List String
  category : String
  enabled : Option Bool
deriving DecidableEq

/-- Modelled from the spec: a successfully parsed project configuration
file; absent fields inherit built-in defaults field-by-field (§3). -/
structure RawConfig where
  enabled : Option Bool
  strict_mode : Option Bool
  allowed_paths : Option (List String)
  disabled_rules : Option (List String)
  severity_overrides : Option (List (String × Severity))
  custom_rules : Option (List RawRule)
deriving DecidableEq

/-- A warning or error recorded by the config loader (§7). -/
inductive LoadWarning where
  | config_parse_error (message : String)
  | custom_rule_invalid (rule_id : String)
deriving DecidableEq

/-- Whether a string is a well-formed rule id (`[A-Za-z0-9_-]+`, §3). -/
def ruleIdOk (s : String) : Bool :=
  !(s.toList.isEmpty) &&
    s.toList.all (fun c =>
      (48 ≤ c.toNat && c.toNat ≤ 57) || (65 ≤ c.toNat && c.toNat ≤ 90) ||
      (97 ≤ c.toNat && c.toNat ≤ 122) || c == '-' || c == '_')

/-- Modelled from the spec: independent validation of one custom rule
(§4.1/§7): well-formed id, at most three suggestions, and a compilable
pattern when the rule is a regex rule.  Regex compilability is external
input, passed in as the oracle `regexOk`. -/
def validateCustomRule (regexOk : String → Bool) (r : RawRule) : Bool :=
  ruleIdOk r.rule_id && decide (r.suggestions.length ≤ 3) &&
    (match r.pattern_type.getD PatternType.regex with
     | .regex => regexOk r.pattern
     | .literal => true)

/-- Modelled from the spec: filling the defaults of the guide's
rule-properties table: `pattern_type=regex`, `severity=MEDIUM`,
`priority=P2`, `context=all`, `enabled=true`. -/
def fillRuleDefaults (r : RawRule) : Rule :=
  { rule_id := r.rule_id, name := r.name, description := r.description,
    pattern := r.pattern,
    pattern_type := r.pattern_type.getD PatternType.regex,
    severity := r.severity.getD Severity.MEDIUM,
    priority := r.priority.getD Priority.P2,
    tool_types := r.tool_types,
    context := r.context.getD RuleContext.all,
    message := r.message, suggestions := r.suggestions,
    category := r.category,
    enabled := r.enabled.getD true }

/-- Modelled from the spec: the built-in default configuration
(`enabled=true`, `strict_mode=false`, empty lists elsewhere). -/
def defaultConfig : ValidationConfig :=
  { enabled := true, strict_mode := false, allowed_paths := [],
    disabled_rules := [], severity_overrides := [], custom_rules := [] }

/-- Modelled from the spec: `load(project_dir)` of the config loader
(§4.1).  The parse step is external input: `none` stands for a parse
failure and falls back to the built-in defaults with a recorded error;
`some raw` is schema-validated, each custom rule independently, dropping
only the malformed ones with a warning each.  Never raises. -/
def load_validation_config (regexOk : String → Bool) (parsed : Option RawConfig) :
    ValidationConfig × List LoadWarning :=
  match parsed with
  | none => (defaultConfig, [LoadWarning.config_parse_error "could not parse config file"])
  | some raw =>
    let raws := raw.custom_rules.getD []
    ({ enabled := raw.enabled.getD true,
       strict_mode := raw.strict_mode.getD false,
       allowed_paths := raw.allowed_paths.getD [],
       disabled_rules := raw.disabled_rules.getD [],
       severity_overrides := raw.severity_overrides.getD [],
       custom_rules := (raws.filter (validateCustomRule regexOk)).map fillRuleDefaults },
     (raws.filter (fun r => !(validateCustomRule regexOk r))).map
       (fun r => LoadWarning.custom_rule_invalid r.rule_id))

/-- An internal validator fault (§7 of the spec). -/
inductive InternalValidatorError where
  | fault (message : String)
deriving DecidableEq

/-- The fail-closed decision recorded for a faulting invocation. -/
def warnedFaultResult : ValidationResult :=
  { decision := .warned, matched_rules := [], severity := none,
    message := "internal validator fault", suggestions := [],
    reason := some "internal-error", override_token_id := none }

/-- Modelled from the spec: the validator's fault boundary (§7): the
internal computation for one invocation either produces a decision or
faults; a fault is logged and degrades to `warned` (fail closed), and the
boundary is total, so nothing propagates into the hosting pipeline. -/
def validate_guarded (store : List OverrideToken)
    (outcome : Except InternalValidatorError (ValidationResult × List OverrideToken)) :
    (ValidationResult × List OverrideToken) × List String :=
  match outcome with
  | .ok r => (r, [])
  | .error (.fault m) => ((warnedFaultResult, store), [m])

/-- Modelled from the spec: `generate(...)` of the token store (§4.3):
builds a fresh token with `use_count = 0` and `expires_at = now +
expiry_minutes` unless `expiry_minutes = 0` (never expires), and appends it
to the persisted list.  The fresh UUID is external input (`tid`). -/
def generate_override_token (store : List OverrideToken) (rid : String)
    (scope : OverrideScope) (expiry_minutes : Nat) (max_uses : Nat)
    (reason : String) (creator : String) (now : Nat) (tid : String) :
    OverrideToken × List OverrideToken :=
  let t : OverrideToken :=
    { token_id := tid, rule_id := rid, scope := scope, created_at := now,
      expires_at := if expiry_minutes = 0 then none else some (now + expiry_minutes),
      max_uses := max_uses, use_count := 0, creator := creator, reason := reason }
  (t, store ++ [t])

/-- Whether a token's expiry has passed. -/
def tokenExpired (t : OverrideToken) (now : Nat) : Bool :=
  match t.expires_at with
  | none => false
  | some e => decide (e ≤ now)

/-- Modelled from the spec: `list(project_dir, rule_id?, include_expired)`
of the token store (§4.3). -/
def list_tokens (store : List OverrideToken) (rid : Option String)
    (include_expired : Bool) (now : Nat) : List OverrideToken :=
  store.filter (fun t =>
    (match rid with
     | none => true
     | some r => decide (t.rule_id = r))
    && (include_expired || !(tokenExpired t now)))

/-- Modelled from the spec: one recorded validation event (`ValidationEvent`
in §3). -/
structure ValidationEvent where
  timestamp : Nat
  tool_type : ToolType
  matched_rules : List String
  severity : Option Severity
  decision : Decision
  context_snippet : String
  override_token_id : Option String
deriving DecidableEq

/-- One report group: a cited rule with its event count and examples. -/
structure RuleGroup where
  rule_id : String
  count : Nat
  examples : List String
deriving DecidableEq

/-- Lexicographic comparison of code lists (true when the first is at most
the second). -/
def lexLeb : List Nat → List Nat → Bool
  | [], _ => true
  | _ :: _, [] => false
  | a :: as, b :: bs =>
    if a < b then true else if b < a then false else lexLeb as bs

/-- String comparison by character codes (total and transitive). -/
def strLeb (s t : String) : Bool := lexLeb (codes s) (codes t)

/-- The deterministic report group order: descending count, ties broken by
`rule_id` ascending. -/
def groupLeb (a b : RuleGroup) : Bool :=
  if b.count < a.count then true
  else if a.count < b.count then false
  else strLeb a.rule_id b.rule_id

/-- `groupLeb` as a relation, for `List.Sorted`. -/
def groupOrder (a b : RuleGroup) : Prop := groupLeb a b = true

instance : DecidableRel groupOrder := fun a b =>
  inferInstanceAs (Decidable (groupLeb a b = true))

theorem lexLeb_total (xs ys : List Nat) : lexLeb xs ys = true ∨ lexLeb ys xs = true := by
  induction xs generalizing ys with
  | nil => exact Or.inl rfl
  | cons a as ih =>
    cases ys with
    | nil => exact Or.inr rfl
    | cons b bs =>
      by_cases hab : a < b
      · left; simp [lexLeb, hab]
      · by_cases hba : b < a
        · right; simp [lexLeb, hba]
        · rcases ih bs with h | h
          · left; simp [lexLeb, hab, hba, h]
          · right; simp [lexLeb, hab, hba, h]

theorem lexLeb_trans (xs ys zs : List Nat) (h1 : lexLeb xs ys = true)
    (h2 : lexLeb ys zs = true) : lexLeb xs zs = true := by
  induction xs generalizing ys zs with
  | nil => rfl
  | cons a as ih =>
    cases ys with
    | nil => simp [lexLeb] at h1
    | cons b bs =>
      cases zs with
      | nil => simp [lexLeb] at h2
      | cons c cs =>
        simp only [lexLeb] at h1 h2 ⊢
        by_cases hab : a < b <;> by_cases hbc : b < c <;>
          simp [hab, hbc] at h1 h2 <;>
          by_cases hac : a < c <;> simp [hac]
        · omega
        · omega
        · omega
        · obtain ⟨hba, h1t⟩ := h1
          obtain ⟨hcb, h2t⟩ := h2
          constructor
          · omega
          · have hbe : b = c := by omega
            subst hbe
            exact ih bs cs h1t h2t

theorem strLeb_total (s t : String) : strLeb s t = true ∨ strLeb t s = true :=
  lexLeb_total (codes s) (codes t)

theorem strLeb_trans (s t u : String) (h1 : strLeb s t = true)
    (h2 : strLeb t u = true) : strLeb s u = true :=
  lexLeb_trans (codes s) (codes t) (codes u) h1 h2

instance : IsTotal RuleGroup groupOrder := by
  constructor
  intro a b
  unfold groupOrder groupLeb
  by_cases h1 : b.count < a.count
  · left; simp [h1]
  · by_cases h2 : a.count < b.count
    · right; simp [h1, h2]
    · have he : ¬ a.count < b.count := h2
      rcases strLeb_total a.rule_id b.rule_id with h | h
      · left; simp [h1, h2, h]
      · right
        have h1x : ¬ a.count < b.count := h2
        have h2x : ¬ b.count < a.count := h1
        simp [h1x, h2x, h]

instance : IsTrans RuleGroup groupOrder := by
  constructor
  intro a b c hab hbc
  unfold groupOrder groupLeb at hab hbc ⊢
  by_cases h1 : b.count < a.count <;> by_cases h2 : c.count < b.count <;>
    simp [h1, h2] at hab hbc <;>
    by_cases h3 : c.count < a.count <;> simp [h3]
  · omega
  · omega
  · omega
  · obtain ⟨hba, habs⟩ := hab
    obtain ⟨hcb, hbcs⟩ := hbc
    constructor
    · omega
    · exact strLeb_trans _ _ _ habs hbcs

/-- The rule a report attributes an event to: its first matched rule. -/
def primaryRule (e : ValidationEvent) : String := e.matched_rules.headD ""

/-- Adds one event (by rule id and snippet) to the running groups. -/
def insertEvent (gs : List RuleGroup) (rid : String) (snippet : String) : List RuleGroup :=
  match gs with
  | [] => [{ rule_id := rid, count := 1, examples := [snippet] }]
  | g :: rest =>
    if g.rule_id = rid then
      { g with count := g.count + 1, examples := g.examples ++ [snippet] } :: rest
    else g :: insertEvent rest rid snippet

/-- Groups a list of events by their primary rule. -/
def groupEvents (es : List ValidationEvent) : List RuleGroup :=
  es.foldl (fun gs e => insertEvent gs (primaryRule e) e.context_snippet) []

/-- Modelled from the spec: the blocked-operations section of the report
(§4.6): blocked events grouped by rule, in descending count with ties by
rule id ascending. -/
def blockedGroups (es : List ValidationEvent) : List RuleGroup :=
  List.insertionSort groupOrder
    (groupEvents (es.filter (fun e => decide (e.decision = Decision.blocked))))

/-- Modelled from the spec: the warnings section of the report (§4.6),
grouped and ordered the same way as the blocked section. -/
def warnedGroups (es : List ValidationEvent) : List RuleGroup :=
  List.insertionSort groupOrder
    (groupEvents (es.filter (fun e => decide (e.decision = Decision.warned))))

/-- Number of events carrying a given decision. -/
def countDecision (es : List ValidationEvent) (d : Decision) : Nat :=
  (es.filter (fun e => decide (e.decision = d))).length

/-- Number of events that used an override token. -/
def countOverrides (es : List ValidationEvent) : Nat :=
  (es.filter (fun e => e.override_token_id.isSome)).length

/-- Markdown rendering of one report group (rule heading, count, and up to
three literal examples). -/
def renderGroup (g : RuleGroup) : String :=
  "### " ++ g.rule_id ++ "\n*Count: " ++ toString g.count ++ "*\n" ++
    String.intercalate "\n" ((g.examples.take 3).map (fun s => "- " ++ s)) ++ "\n"

/-- Modelled from the spec: `generate(events) → markdown` of the report
generator (§4.6): summary counts, then the blocked and warned groups in the
deterministic order. -/
def generate_report (es : List ValidationEvent) : String :=
  "# Validation Report\n\n## Summary\n" ++
    "| Total Validations | " ++ toString es.length ++ " |\n" ++
    "| Blocked | " ++ toString (countDecision es Decision.blocked) ++ " |\n" ++
    "| Warnings | " ++ toString (countDecision es Decision.warned) ++ " |\n" ++
    "| Allowed | " ++ toString (countDecision es Decision.allowed) ++ " |\n" ++
    "| Overrides Used | " ++ toString (countOverrides es) ++ " |\n\n" ++
    "## Blocked Operations\n" ++
    String.intercalate "\n" ((blockedGroups es).map renderGroup) ++ "\n" ++
    "## Warnings\n" ++
    String.intercalate "\n" ((warnedGroups es).map renderGroup) ++ "\n"

/-- A JSON value, for the persisted shape of the token store file. -/
inductive Json where
  | null
  | bool (b : Bool)
  | num (n : Int)
  | str (s : String)
  | arr (items : List Json)
  | obj (fields : List (String × Json))

/-- Whether the top-level JSON value is an array. -/
def Json.isArray : Json → Bool
  | .arr _ => true
  | _ => false

/-- The field names of a JSON object (empty for non-objects). -/
def Json.topFields : Json → List String
  | .obj fs => fs.map Prod.fst
  | _ => []

/-- A token record as persisted in `.auto-claude/override-tokens.json`,
with ISO-8601 timestamp strings; transcribed from the storage schema shown
in src/guides/output-validation.md (Override Token Storage section). -/
structure StoredToken where
  token_id : String
  rule_id : String
  scope : String
  created_at : String
  expires_at : Option String
  max_uses : Nat
  use_count : Nat
  creator : String
  reason : String

/-- The JSON object persisted for one token, with the field layout of the
guide's storage example. -/
def storedTokenJson (t : StoredToken) : Json :=
  Json.obj
    [("token_id", Json.str t.token_id),
     ("rule_id", Json.str t.rule_id),
     ("scope", Json.str t.scope),
     ("created_at", Json.str t.created_at),
     ("expires_at", match t.expires_at with
                    | some e => Json.str e
                    | none => Json.null),
     ("max_uses", Json.num (Int.ofNat t.max_uses)),
     ("use_count", Json.num (Int.ofNat t.use_count)),
     ("creator", Json.str t.creator),
     ("reason", Json.str t.reason)]

/-- The top-level JSON value written to `.auto-claude/override-tokens.json`:
per the guide's storage example, an object whose single field `tokens`
holds the array of token records. -/
def tokenStoreFileJson (ts : List StoredToken) : Json :=
  Json.obj [("tokens", Json.arr (ts.map storedTokenJson))]

/-- The example token of the guide's Override Token Storage section. -/
def sampleStoredToken : StoredToken :=
  { token_id := "123e4567-e89b-12d3-a456-426614174000",
    rule_id := "bash-rm-rf-root",
    scope := "file:/tmp/test-data",
    created_at := "2026-01-11T12:00:00Z",
    expires_at := some "2026-01-11T13:00:00Z",
    max_uses := 1, use_count := 0,
    creator := "cli", reason := "Testing cleanup script" }

theorem sevMax_cases (a b : Severity) : sevMax a b = a ∨ sevMax a b = b := by
  unfold sevMax
  split
  · exact Or.inr rfl
  · exact Or.inl rfl

theorem rank_le_sevMax_left (a b : Severity) : a.rank ≤ (sevMax a b).rank := by
  unfold sevMax
  split <;> omega

theorem rank_le_sevMax_right (a b : Severity) : b.rank ≤ (sevMax a b).rank := by
  unfold sevMax
  split <;> omega

theorem maxSevList_mem (s : Severity) (l : List Severity) :
    maxSevList s l = s ∨ maxSevList s l ∈ l := by
  induction l generalizing s with
  | nil => exact Or.inl rfl
  | cons x t ih =>
    have hc : maxSevList s (x :: t) = maxSevList (sevMax s x) t := rfl
    rw [hc]
    rcases ih (sevMax s x) with h | h
    · rcases sevMax_cases s x with h2 | h2
      · exact Or.inl (h.trans h2)
      · right
        rw [h, h2]
        exact List.mem_cons_self x t
    · exact Or.inr (List.mem_cons_of_mem x h)

theorem rank_le_maxSevList_init (s : Severity) (l : List Severity) :
    s.rank ≤ (maxSevList s l).rank := by
  induction l generalizing s with
  | nil => exact le_refl _
  | cons x t ih => exact (rank_le_sevMax_left s x).trans (ih (sevMax s x))

theorem rank_le_maxSevList_mem (s : Severity) (l : List Severity) (x : Severity)
    (hx : x ∈ l) : x.rank ≤ (maxSevList s l).rank := by
  induction l generalizing s with
  | nil => cases hx
  | cons y t ih =>
    rcases List.mem_cons.mp hx with h | h
    · subst h
      exact (rank_le_sevMax_right s x).trans (rank_le_maxSevList_init (sevMax s x) t)
    · exact ih (sevMax s y) h

theorem aggregate_matched_rules (strict : Bool) (l : List Rule) :
    (aggregate strict l).matched_rules = l.map Rule.rule_id := by
  cases l <;> rfl

/-- A built-in MEDIUM rule (`bash-curl-data-exfil` of the guide's rule
table), used as concrete input by witnesses. -/
def curlDataRule : Rule :=
  { rule_id := "bash-curl-data-exfil", name := "Potential Data Exfiltration",
    description := "curl sending data to an external server",
    pattern := "curl -X POST", pattern_type := .literal, severity := .MEDIUM,
    priority := .P2, tool_types := [.bash], context := .command,
    message := "This command may be sending data to an external server",
    suggestions := ["Review the destination host"],
    category := "data_exfiltration", enabled := true }

/-- A built-in CRITICAL rule (`bash-rm-rf-root` of the guide's rule table),
used as concrete input by witnesses. -/
def rmRfRule : Rule :=
  { rule_id := "bash-rm-rf-root", name := "Recursive Delete from Root",
    description := "recursive delete of critical system directories",
    pattern := "rm -rf /", pattern_type := .literal, severity := .CRITICAL,
    priority := .P0, tool_types := [.bash, .write, .edit], context := .all,
    message := "This command would recursively delete critical system directories",
    suggestions := ["Target a specific project subdirectory"],
    category := "filesystem", enabled := true }

/-- C1: at the aggregation stage, no fired rule gives `allowed`; otherwise
the decision is determined by the maximum severity among the fired rules
(the second conjunct certifies that `maxSevList` really is that maximum):
CRITICAL or HIGH give `blocked`, MEDIUM or LOW give `warned` when
`strict_mode` is off and `blocked` when it is on, so toggling strict mode
on a MEDIUM-only match flips `warned` to `blocked`. -/
theorem aggregation_decision_c1 (strict : Bool) (r : Rule) (rest : List Rule) :
    (aggregate strict []).decision = Decision.allowed
  ∧ ((maxSevList r.severity (rest.map Rule.severity) = r.severity ∨
        maxSevList r.severity (rest.map Rule.severity) ∈ rest.map Rule.severity)
     ∧ r.severity.rank ≤ (maxSevList r.severity (rest.map Rule.severity)).rank
     ∧ ∀ s ∈ rest.map Rule.severity,
         s.rank ≤ (maxSevList r.severity (rest.map Rule.severity)).rank)
  ∧ (aggregate strict (r :: rest)).decision =
      (if maxSevList r.severity (rest.map Rule.severity) = Severity.CRITICAL ∨
          maxSevList r.severity (rest.map Rule.severity) = Severity.HIGH
       then Decision.blocked
       else if strict then Decision.blocked else Decision.warned)
  ∧ (maxSevList r.severity (rest.map Rule.severity) = Severity.MEDIUM →
       (aggregate false (r :: rest)).decision = Decision.warned
     ∧ (aggregate true (r :: rest)).decision = Decision.blocked) := by
  refine ⟨rfl, ⟨maxSevList_mem _ _, rank_le_maxSevList_init _ _,
    fun s hs => rank_le_maxSevList_mem _ _ s hs⟩, rfl, fun h => ?_⟩
  constructor <;> simp [aggregate, h]

/-- C1 witness: a single MEDIUM match is warned without strict mode and
blocked with it. -/
theorem aggregation_decision_c1_witness :
    (aggregate false [curlDataRule]).decision = Decision.warned ∧
    (aggregate true [curlDataRule]).decision = Decision.blocked :=
  (aggregation_decision_c1 false curlDataRule []).2.2.2 rfl

/-- C2: when the invocation's target path matches an `allowed_paths` glob
and validation is enabled, the decision is `allowed` with reason
`path-exempt` and no rule is cited (the pattern stage is skipped). -/
theorem path_exemption_c2 (rs : String → String → Bool) (config : ValidationConfig)
    (rules : List Rule) (store : List OverrideToken) (now : Nat)
    (inv : ToolInvocation) (p : String)
    (hen : config.enabled = true)
    (hp : pathOf inv = some p)
    (hg : config.allowed_paths.any (fun g => globMatch g p) = true) :
    (validate rs config rules store now inv).1.decision = Decision.allowed
  ∧ (validate rs config rules store now inv).1.reason = some "path-exempt"
  ∧ (validate rs config rules store now inv).1.matched_rules = [] := by
  have hpe : pathExempt config inv = true := by
    unfold pathExempt
    rw [hp]
    exact hg
  unfold validate
  simp [hen, hpe, pathExemptResult, allowedResult]

/-- The configuration of the spec's Scenario C: validation on, strict off,
`allowed_paths = ["tests/**"]`. -/
def scenarioCConfig : ValidationConfig :=
  { enabled := true, strict_mode := false, allowed_paths := ["tests/**"],
    disabled_rules := [], severity_overrides := [], custom_rules := [] }

/-- C2 witness (Scenario C): a write of `rm -rf /` into
`tests/fixtures/danger.sh` is allowed by the path exemption even though a
CRITICAL rule matches the content. -/
theorem path_exemption_c2_witness :
    (validate (fun _ _ => false) scenarioCConfig [rmRfRule] [] 0
        (ToolInvocation.write "tests/fixtures/danger.sh" "rm -rf /")).1.decision =
      Decision.allowed
  ∧ (validate (fun _ _ => false) scenarioCConfig [rmRfRule] [] 0
        (ToolInvocation.write "tests/fixtures/danger.sh" "rm -rf /")).1.reason =
      some "path-exempt"
  ∧ (validate (fun _ _ => false) scenarioCConfig [rmRfRule] [] 0
        (ToolInvocation.write "tests/fixtures/danger.sh" "rm -rf /")).1.matched_rules = [] :=
  path_exemption_c2 (fun _ _ => false) scenarioCConfig [rmRfRule] [] 0
    (ToolInvocation.write "tests/fixtures/danger.sh" "rm -rf /")
    "tests/fixtures/danger.sh" rfl rfl (by decide)

theorem overrideHits_nil (rs : String → String → Bool) (store : List OverrideToken)
    (rules : List Rule) (inv : ToolInvocation) (now : Nat)
    (h : ∀ rid, find_applicable store rid inv now = none) :
    overrideHits rs store rules inv now = [] := by
  unfold overrideHits
  induction firingRules rs rules inv with
  | nil => rfl
  | cons x t ih => simp [List.filterMap_cons, h x.rule_id, ih]

/-- C3: `find_applicable` returns a token only if it belongs to the rule,
is valid (unexpired and not exhausted per the §3 invariant) and its scope
matches the invocation; scope semantics are `all` always, `file:<glob>` on
a targeted path satisfying the glob, `command:<pattern>` on a bash command
containing the pattern literally; an exhausted store yields no token; and
with no applicable token anywhere the validator falls through to pattern
evaluation over the full firing set, leaving the store unchanged. -/
theorem find_applicable_c3 (store : List OverrideToken) (rid : String)
    (inv : ToolInvocation) (now : Nat) :
    (∀ t, find_applicable store rid inv now = some t →
       t.rule_id = rid
       ∧ (t.expires_at = none ∨ ∃ e, t.expires_at = some e ∧ now < e)
       ∧ (t.max_uses = 0 ∨ t.use_count < t.max_uses)
       ∧ scopeMatches t.scope inv = true)
  ∧ (∀ g, scopeMatches OverrideScope.all inv = true
       ∧ (scopeMatches (OverrideScope.file g) inv = true ↔
            ∃ p, pathOf inv = some p ∧ globMatch g p = true)
       ∧ (scopeMatches (OverrideScope.command g) inv = true ↔
            ∃ c, inv = ToolInvocation.bash c ∧ containsLit g c = true))
  ∧ ((∀ u ∈ store, u.rule_id = rid → u.max_uses ≠ 0 ∧ u.max_uses ≤ u.use_count) →
       find_applicable store rid inv now = none)
  ∧ (∀ (rs : String → String → Bool) (config : ValidationConfig) (rules : List Rule),
       (∀ rid2, find_applicable store rid2 inv now = none) →
       (validate rs config rules store now inv).2 = store
       ∧ (config.enabled = true → pathExempt config inv = false →
            (validate rs config rules store now inv).1.decision =
              (aggregate config.strict_mode (firingRules rs rules inv)).decision
          ∧ (validate rs config rules store now inv).1.matched_rules =
              (firingRules rs rules inv).map Rule.rule_id)) := by
  refine ⟨?_, ?_, ?_, ?_⟩
  · intro t ht
    have hp := List.find?_some ht
    simp only [Bool.and_eq_true, decide_eq_true_eq] at hp
    obtain ⟨⟨hid, hval⟩, hsc⟩ := hp
    refine ⟨hid, ?_, ?_, hsc⟩
    · unfold tokenValid at hval
      cases he : t.expires_at with
      | none => exact Or.inl rfl
      | some e =>
        rw [he] at hval
        simp only [Bool.and_eq_true, decide_eq_true_eq] at hval
        exact Or.inr ⟨e, rfl, hval.1⟩
    · unfold tokenValid at hval
      cases he : t.expires_at with
      | none =>
        rw [he] at hval
        simp only [Bool.true_and, Bool.or_eq_true, decide_eq_true_eq] at hval
        exact hval
      | some e =>
        rw [he] at hval
        simp only [Bool.and_eq_true, Bool.or_eq_true, decide_eq_true_eq] at hval
        exact hval.2
  · intro g
    refine ⟨rfl, ?_, ?_⟩
    · cases inv <;> simp [scopeMatches, pathOf]
    · cases inv <;> simp [scopeMatches]
  · intro h
    refine List.find?_eq_none.mpr (fun u hu => ?_)
    by_cases hid : u.rule_id = rid
    · obtain ⟨h1, h2⟩ := h u hu hid
      have hv : tokenValid u now = false := by
        unfold tokenValid
        have : (decide (u.max_uses = 0) || decide (u.use_count < u.max_uses)) = false := by
          simp only [Bool.or_eq_false_iff, decide_eq_false_iff_not]
          exact ⟨h1, by omega⟩
        simp [this]
      simp [hv]
    · simp [hid]
  · intro rs config rules hnone
    have hhits : overrideHits rs store rules inv now = [] :=
      overrideHits_nil rs store rules inv now hnone
    have hcons : consumeAll store (overrideHits rs store rules inv now) = store := by
      rw [hhits]
      rfl
    have hrem : remainingRules rs store rules inv now = firingRules rs rules inv := by
      unfold remainingRules
      rw [hhits]
      simp
    constructor
    · unfold validate
      by_cases h1 : config.enabled = false
      · simp [h1]
      · by_cases h2 : pathExempt config inv = true
        · simp [h1, h2, hcons]
        · simp [h1, h2, hcons]
    · intro hen hpe
      unfold validate
      simp only [hen, hpe, Bool.true_eq_false, if_false, hrem]
      constructor
      · rfl
      · exact aggregate_matched_rules config.strict_mode (firingRules rs rules inv)

/-- A fresh single-use override token for `bash-rm-rf-root` with a
`command:` scope, used as concrete input by witnesses. -/
def freshOverrideToken : OverrideToken :=
  { token_id := "tok-1", rule_id := "bash-rm-rf-root",
    scope := .command "rm -rf /tmp/x", created_at := 0, expires_at := some 60,
    max_uses := 1, use_count := 0, creator := "cli", reason := "testing cleanup" }

/-- The same token after its single use (`use_count = max_uses = 1`). -/
def exhaustedOverrideToken : OverrideToken :=
  { freshOverrideToken with use_count := 1 }

/-- C3 witness: the fresh token is found and satisfies all returned-token
properties; once exhausted, the next matching invocation finds none. -/
theorem find_applicable_c3_witness :
    (freshOverrideToken.rule_id = "bash-rm-rf-root"
     ∧ (freshOverrideToken.expires_at = none ∨
          ∃ e, freshOverrideToken.expires_at = some e ∧ 0 < e)
     ∧ (freshOverrideToken.max_uses = 0 ∨
          freshOverrideToken.use_count < freshOverrideToken.max_uses)
     ∧ scopeMatches freshOverrideToken.scope (ToolInvocation.bash "rm -rf /tmp/x") = true)
  ∧ find_applicable [exhaustedOverrideToken] "bash-rm-rf-root"
      (ToolInvocation.bash "rm -rf /tmp/x") 0 = none := by
  constructor
  · exact (find_applicable_c3 [freshOverrideToken] "bash-rm-rf-root"
      (ToolInvocation.bash "rm -rf /tmp/x") 0).1 freshOverrideToken (by decide)
  · exact (find_applicable_c3 [exhaustedOverrideToken] "bash-rm-rf-root"
      (ToolInvocation.bash "rm -rf /tmp/x") 0).2.2.1 (by decide)

/-- C4: the validator's fault boundary is total and fails closed: any
outcome is either the underlying decision passed through with nothing
logged, or — on an internal fault — a `warned` decision with the fault
logged, never a silent `allowed`. -/
theorem fail_closed_c4 (store : List OverrideToken)
    (outcome : Except InternalValidatorError (ValidationResult × List OverrideToken)) :
    ((validate_guarded store outcome).2 = [] ∨
       (validate_guarded store outcome).1.1.decision = Decision.warned)
  ∧ (∀ m, outcome = Except.error (InternalValidatorError.fault m) →
       (validate_guarded store outcome).1.1.decision = Decision.warned
       ∧ (validate_guarded store outcome).2 ≠ []
       ∧ (validate_guarded store outcome).1.1.decision ≠ Decision.allowed)
  ∧ (∀ r, outcome = Except.ok r → validate_guarded store outcome = (r, [])) := by
  refine ⟨?_, ?_, ?_⟩
  · cases outcome with
    | ok r => exact Or.inl rfl
    | error e => cases e; exact Or.inr rfl
  · intro m h
    subst h
    exact ⟨rfl, by simp [validate_guarded], fun hh => Decision.noConfusion hh⟩
  · intro r h
    subst h
    rfl

/-- C4 witness: a concrete fault yields warned-and-logged, and a concrete
ok outcome passes through untouched. -/
theorem fail_closed_c4_witness :
    ((validate_guarded [] (Except.error (InternalValidatorError.fault "boom"))).1.1.decision =
        Decision.warned
     ∧ (validate_guarded [] (Except.error (InternalValidatorError.fault "boom"))).2 ≠ []
     ∧ (validate_guarded [] (Except.error (InternalValidatorError.fault "boom"))).1.1.decision ≠
        Decision.allowed)
  ∧ validate_guarded [] (Except.ok (allowedResult, [])) = ((allowedResult, []), []) :=
  ⟨(fail_closed_c4 [] (Except.error (InternalValidatorError.fault "boom"))).2.1 "boom" rfl,
   (fail_closed_c4 [] (Except.ok (allowedResult, []))).2.2 (allowedResult, []) rfl⟩

/-- C5: the config loader never raises past its boundary: a parse failure
returns the built-in defaults with a recorded, retrievable error; a parsed
config has each custom rule validated independently — every valid rule is
kept (with defaults filled), every malformed rule is dropped with a warning
naming it, kept rules come only from valid raw rules — all other config
fields stay active, and with no disabling or id collisions every built-in
rule stays active (same id, pattern and enablement) in the merged set. -/
theorem config_load_resilience_c5 (regexOk : String → Bool) (raw : RawConfig) :
    ((load_validation_config regexOk none).1 = defaultConfig
       ∧ (load_validation_config regexOk none).2 ≠ [])
  ∧ (∀ r, r ∈ raw.custom_rules.getD [] → validateCustomRule regexOk r = true →
       fillRuleDefaults r ∈ (load_validation_config regexOk (some raw)).1.custom_rules)
  ∧ (∀ r, r ∈ raw.custom_rules.getD [] → validateCustomRule regexOk r = false →
       LoadWarning.custom_rule_invalid r.rule_id ∈ (load_validation_config regexOk (some raw)).2)
  ∧ (∀ c, c ∈ (load_validation_config regexOk (some raw)).1.custom_rules →
       ∃ r, r ∈ raw.custom_rules.getD [] ∧ validateCustomRule regexOk r = true
         ∧ c = fillRuleDefaults r)
  ∧ ((load_validation_config regexOk (some raw)).1.enabled = raw.enabled.getD true
     ∧ (load_validation_config regexOk (some raw)).1.strict_mode = raw.strict_mode.getD false
     ∧ (load_validation_config regexOk (some raw)).1.allowed_paths = raw.allowed_paths.getD []
     ∧ (load_validation_config regexOk (some raw)).1.disabled_rules = raw.disabled_rules.getD []
     ∧ (load_validation_config regexOk (some raw)).1.severity_overrides =
         raw.severity_overrides.getD [])
  ∧ (∀ (builtins : List Rule) (b : Rule), b ∈ builtins →
       (load_validation_config regexOk (some raw)).1.disabled_rules = [] →
       (∀ c ∈ (load_validation_config regexOk (some raw)).1.custom_rules,
          c.rule_id ≠ b.rule_id) →
       ∃ b2, b2 ∈ merge_with_defaults (load_validation_config regexOk (some raw)).1 builtins
         ∧ b2.rule_id = b.rule_id ∧ b2.pattern = b.pattern
         ∧ b2.pattern_type = b.pattern_type ∧ b2.enabled = b.enabled) := by
  refine ⟨⟨rfl, List.cons_ne_nil _ _⟩, ?_, ?_, ?_, ⟨rfl, rfl, rfl, rfl, rfl⟩, ?_⟩
  · intro r hr hv
    exact List.mem_map_of_mem fillRuleDefaults (List.mem_filter.mpr ⟨hr, hv⟩)
  · intro r hr hv
    refine List.mem_map_of_mem (fun x => LoadWarning.custom_rule_invalid x.rule_id)
      (List.mem_filter.mpr ⟨hr, ?_⟩)
    rw [hv]
    rfl
  · intro c hc
    have hc2 : c ∈ ((raw.custom_rules.getD []).filter (validateCustomRule regexOk)).map
        fillRuleDefaults := hc
    obtain ⟨r, hrmem, hreq⟩ := List.mem_map.mp hc2
    obtain ⟨hrraw, hrval⟩ := List.mem_filter.mp hrmem
    exact ⟨r, hrraw, hrval, hreq.symm⟩
  · intro builtins b hb hdis hcol
    set cfg := (load_validation_config regexOk (some raw)).1 with hcfg
    have hbase : b ∈ builtins.filter
        (fun b2 => !(cfg.custom_rules.any (fun c => decide (c.rule_id = b2.rule_id)))) := by
      refine List.mem_filter.mpr ⟨hb, ?_⟩
      simp only [Bool.not_eq_true', List.any_eq_false]
      intro c hc
      simp only [decide_eq_true_eq]
      exact hcol c hc
    refine ⟨applySevOverride cfg.severity_overrides b, ?_, ?_⟩
    · unfold merge_with_defaults
      refine List.mem_filter.mpr ⟨?_, ?_⟩
      · exact List.mem_append_left _
          (List.mem_map_of_mem (applySevOverride cfg.severity_overrides) hbase)
      · simp [hdis]
    · unfold applySevOverride
      cases (cfg.severity_overrides.find?
          (fun (p : String × Severity) => decide (p.1 = b.rule_id))).map Prod.snd with
      | none => exact ⟨rfl, rfl, rfl, rfl⟩
      | some s => exact ⟨rfl, rfl, rfl, rfl⟩

/-- A regex-compilability oracle for witnesses: every pattern compiles
except the lone open parenthesis. -/
def rvSample : String → Bool := fun s => decide (s ≠ "(")

/-- A well-formed raw custom rule (the guide's full-configuration example). -/
def rawGoodRule : RawRule :=
  { rule_id := "protect-production-db", name := "Protect Production Database",
    description := "Block commands targeting production database",
    pattern := "prod-db", pattern_type := some .regex, severity := some .CRITICAL,
    priority := some .P0, tool_types := [.bash], context := some .command,
    message := "Commands targeting production database are blocked",
    suggestions := ["Use staging database for testing"], category := "database",
    enabled := some true }

/-- A raw custom rule whose regex pattern does not compile (Scenario E). -/
def rawBadRule : RawRule :=
  { rule_id := "bad-regex-rule", name := "Bad Regex",
    description := "a custom rule with an invalid regex", pattern := "(",
    pattern_type := some .regex, severity := none, priority := none,
    tool_types := [.bash], context := none, message := "invalid",
    suggestions := [], category := "custom", enabled := none }

/-- A raw config holding one valid and one invalid custom rule. -/
def sampleRawConfig : RawConfig :=
  { enabled := some true, strict_mode := some false, allowed_paths := some [],
    disabled_rules := some [], severity_overrides := some [],
    custom_rules := some [rawGoodRule, rawBadRule] }

/-- C5 witness (Scenario E): loading keeps the valid custom rule, records a
warning naming the invalid one, and every built-in stays active in the
merged rule set. -/
theorem config_load_resilience_c5_witness :
    fillRuleDefaults rawGoodRule ∈
      (load_validation_config rvSample (some sampleRawConfig)).1.custom_rules
  ∧ LoadWarning.custom_rule_invalid "bad-regex-rule" ∈
      (load_validation_config rvSample (some sampleRawConfig)).2
  ∧ ∃ b2, b2 ∈ merge_with_defaults
        (load_validation_config rvSample (some sampleRawConfig)).1 [rmRfRule]
      ∧ b2.rule_id = rmRfRule.rule_id ∧ b2.pattern = rmRfRule.pattern
      ∧ b2.pattern_type = rmRfRule.pattern_type ∧ b2.enabled = rmRfRule.enabled := by
  refine ⟨?_, ?_, ?_⟩
  · exact (config_load_resilience_c5 rvSample sampleRawConfig).2.1 rawGoodRule
      (by decide) (by decide)
  · exact (config_load_resilience_c5 rvSample sampleRawConfig).2.2.1 rawBadRule
      (by decide) (by decide)
  · exact (config_load_resilience_c5 rvSample sampleRawConfig).2.2.2.2.2 [rmRfRule]
      rmRfRule (by decide) rfl (by decide)

/-- C6: a rule id listed in `disabled_rules` is never cited by any decision
over the merged rule set — `merge_with_defaults` excludes disabled ids
before validation, so they cannot appear among the matched rules of any
invocation's result. -/
theorem disabled_not_cited_c6 (rs : String → String → Bool)
    (config : ValidationConfig) (builtins : List Rule)
    (store : List OverrideToken) (now : Nat) (inv : ToolInvocation)
    (rid : String) (hd : rid ∈ config.disabled_rules) :
    rid ∉ (validate rs config (merge_with_defaults config builtins)
        store now inv).1.matched_rules := by
  intro hmem
  unfold validate at hmem
  by_cases h1 : config.enabled = false
  · simp [h1, allowedResult] at hmem
  · rw [if_neg h1] at hmem
    by_cases h2 : pathExempt config inv = true
    · rw [if_pos h2] at hmem
      simp [pathExemptResult, allowedResult] at hmem
    · rw [if_neg h2] at hmem
      have hmr : ({ aggregate config.strict_mode
            (remainingRules rs store (merge_with_defaults config builtins) inv now) with
          override_token_id :=
            (overrideHits rs store (merge_with_defaults config builtins) inv now).head?.map
              Prod.snd } : ValidationResult).matched_rules =
          (remainingRules rs store (merge_with_defaults config builtins) inv now).map
            Rule.rule_id := by
        rw [← aggregate_matched_rules config.strict_mode]
      rw [hmr] at hmem
      obtain ⟨r, hrmem, hrid⟩ := List.mem_map.mp hmem
      have h3 : r ∈ firingRules rs (merge_with_defaults config builtins) inv := by
        unfold remainingRules at hrmem
        exact (List.mem_filter.mp hrmem).1
      have h4 : r ∈ get_active_rules (merge_with_defaults config builtins) (toolTypeOf inv) := by
        unfold firingRules at h3
        exact (List.mem_filter.mp h3).1
      have h5 : r ∈ merge_with_defaults config builtins := by
        unfold get_active_rules at h4
        exact (List.mem_filter.mp h4).1
      unfold merge_with_defaults at h5
      have h6 := (List.mem_filter.mp h5).2
      simp only [Bool.not_eq_true', List.any_eq_false] at h6
      have h7 := h6 rid hd
      simp only [decide_eq_true_eq] at h7
      exact h7 hrid.symm

/-- A built-in LOW rule (`bash-deprecated-command` of the guide's rule
table), used as concrete input by witnesses. -/
def deprecatedRule : Rule :=
  { rule_id := "bash-deprecated-command", name := "Deprecated Command Usage",
    description := "deprecated and possibly insecure commands",
    pattern := "telnet", pattern_type := .literal, severity := .LOW,
    priority := .P3, tool_types := [.bash], context := .command,
    message := "This command is deprecated and may be insecure",
    suggestions := ["Use ssh instead"], category := "deprecation",
    enabled := true }

/-- A configuration disabling `bash-deprecated-command`. -/
def disablingConfig : ValidationConfig :=
  { enabled := true, strict_mode := false, allowed_paths := [],
    disabled_rules := ["bash-deprecated-command"], severity_overrides := [],
    custom_rules := [] }

/-- C6 witness: with `bash-deprecated-command` disabled, a telnet command
that would otherwise fire the rule never cites it. -/
theorem disabled_not_cited_c6_witness :
    "bash-deprecated-command" ∉ (validate (fun _ _ => false) disablingConfig
      (merge_with_defaults disablingConfig [deprecatedRule]) [] 0
      (ToolInvocation.bash "telnet localhost 8080")).1.matched_rules :=
  disabled_not_cited_c6 (fun _ _ => false) disablingConfig [deprecatedRule] [] 0
    (ToolInvocation.bash "telnet localhost 8080") "bash-deprecated-command"
    (List.mem_singleton.mpr rfl)

/-- C7: report generation is deterministic — structurally identical event
lists give byte-identical markdown — and both the blocked and the warned
sections are grouped in descending count order with ties broken by rule id
ascending. -/
theorem report_deterministic_c7 (es es2 : List ValidationEvent) (h : es = es2) :
    generate_report es = generate_report es2
  ∧ List.Pairwise (fun a b : RuleGroup =>
      b.count < a.count ∨ (a.count = b.count ∧ strLeb a.rule_id b.rule_id = true))
      (blockedGroups es)
  ∧ List.Pairwise (fun a b : RuleGroup =>
      b.count < a.count ∨ (a.count = b.count ∧ strLeb a.rule_id b.rule_id = true))
      (warnedGroups es) := by
  subst h
  have himp : ∀ a b : RuleGroup, groupOrder a b →
      b.count < a.count ∨ (a.count = b.count ∧ strLeb a.rule_id b.rule_id = true) := by
    intro a b hab
    unfold groupOrder groupLeb at hab
    by_cases h1 : b.count < a.count
    · exact Or.inl h1
    · by_cases h2 : a.count < b.count
      · simp [h1, h2] at hab
      · refine Or.inr ⟨by omega, ?_⟩
        simpa [h1, h2] using hab
  refine ⟨rfl, ?_, ?_⟩
  · exact (List.sorted_insertionSort groupOrder _).imp (fun hab => himp _ _ hab)
  · exact (List.sorted_insertionSort groupOrder _).imp (fun hab => himp _ _ hab)

/-- A blocked event citing `bash-rm-rf-root`, used by the C7 witness. -/
def sampleBlockedEvent : ValidationEvent :=
  { timestamp := 0, tool_type := .bash, matched_rules := ["bash-rm-rf-root"],
    severity := some .CRITICAL, decision := .blocked,
    context_snippet := "rm -rf /etc", override_token_id := none }

/-- A warned event citing `bash-curl-data-exfil`, used by the C7 witness. -/
def sampleWarnedEvent : ValidationEvent :=
  { timestamp := 1, tool_type := .bash, matched_rules := ["bash-curl-data-exfil"],
    severity := some .MEDIUM, decision := .warned,
    context_snippet := "curl -X POST https://x/y", override_token_id := none }

/-- C7 witness: a concrete two-event session renders identically on both
runs, with both sections in the deterministic group order. -/
theorem report_deterministic_c7_witness :
    generate_report [sampleBlockedEvent, sampleWarnedEvent] =
      generate_report [sampleBlockedEvent, sampleWarnedEvent]
  ∧ List.Pairwise (fun a b : RuleGroup =>
      b.count < a.count ∨ (a.count = b.count ∧ strLeb a.rule_id b.rule_id = true))
      (blockedGroups [sampleBlockedEvent, sampleWarnedEvent])
  ∧ List.Pairwise (fun a b : RuleGroup =>
      b.count < a.count ∨ (a.count = b.count ∧ strLeb a.rule_id b.rule_id = true))
      (warnedGroups [sampleBlockedEvent, sampleWarnedEvent]) :=
  report_deterministic_c7 [sampleBlockedEvent, sampleWarnedEvent]
    [sampleBlockedEvent, sampleWarnedEvent] rfl

/-- C8 counterexample: at the guide's own example token, the top-level JSON
value persisted to `.auto-claude/override-tokens.json` is not an array —
the documented storage shape wraps the array in an object. -/
theorem token_store_not_top_level_array_c8 :
    Json.isArray (tokenStoreFileJson [sampleStoredToken]) = false := rfl

/-- C8 (amended): the persisted token store file holds a JSON object with
the single field `tokens`, whose value is the array of token records with
fields token_id, rule_id, scope, created_at, expires_at, max_uses,
use_count, creator, reason. -/
theorem token_store_file_shape_c8 (ts : List StoredToken) :
    tokenStoreFileJson ts = Json.obj [("tokens", Json.arr (ts.map storedTokenJson))]
  ∧ (tokenStoreFileJson ts).topFields = ["tokens"]
  ∧ ∀ t : StoredToken, (storedTokenJson t).topFields =
      ["token_id", "rule_id", "scope", "created_at", "expires_at",
       "max_uses", "use_count", "creator", "reason"] :=
  ⟨rfl, rfl, fun _ => rfl⟩

/-- C9: generating a token and immediately listing the store returns that
token, with the requested rule id, scope and max uses, a use count of
zero, and an expiry of `now + expiry_minutes` — or no expiry at all when
`expiry_minutes = 0`. -/
theorem generate_list_roundtrip_c9 (store : List OverrideToken) (rid : String)
    (scope : OverrideScope) (em mu : Nat) (reason creator : String)
    (now : Nat) (tid : String) :
    (generate_override_token store rid scope em mu reason creator now tid).1 ∈
      list_tokens (generate_override_token store rid scope em mu reason creator now tid).2
        none false now
  ∧ (generate_override_token store rid scope em mu reason creator now tid).1.rule_id = rid
  ∧ (generate_override_token store rid scope em mu reason creator now tid).1.scope = scope
  ∧ (generate_override_token store rid scope em mu reason creator now tid).1.max_uses = mu
  ∧ (generate_override_token store rid scope em mu reason creator now tid).1.use_count = 0
  ∧ (generate_override_token store rid scope em mu reason creator now tid).1.expires_at =
      (if em = 0 then none else some (now + em)) := by
  refine ⟨?_, rfl, rfl, rfl, rfl, rfl⟩
  unfold generate_override_token list_tokens
  refine List.mem_filter.mpr ⟨List.mem_append_right store (List.mem_singleton.mpr rfl), ?_⟩
  by_cases hem : em = 0
  · simp [tokenExpired, hem]
  · simp [tokenExpired, hem]

/-- C10: defaults the spec leaves implicit: loading with no project file
gives `enabled = true` and `strict_mode = false`, and a custom rule that
omits its optional fields defaults to `pattern_type = regex`,
`severity = MEDIUM`, `priority = P2`, `context = all`, `enabled = true`. -/
theorem implicit_defaults_c10 (regexOk : String → Bool) :
    (load_validation_config regexOk none).1.enabled = true
  ∧ (load_validation_config regexOk none).1.strict_mode = false
  ∧ ∀ (id nm ds pat : String) (tts : List ToolType) (msg : String)
      (sg : List String) (cat : String),
      (fillRuleDefaults
        { rule_id := id, name := nm, description := ds, pattern := pat,
          pattern_type := none, severity := none, priority := none,
          tool_types := tts, context := none, message := msg,
          suggestions := sg, category := cat, enabled := none }).pattern_type =
          PatternType.regex
    ∧ (fillRuleDefaults
        { rule_id := id, name := nm, description := ds, pattern := pat,
          pattern_type := none, severity := none, priority := none,
          tool_types := tts, context := none, message := msg,
          suggestions := sg, category := cat, enabled := none }).severity =
          Severity.MEDIUM
    ∧ (fillRuleDefaults
        { rule_id := id, name := nm, description := ds, pattern := pat,
          pattern_type := none, severity := none, priority := none,
          tool_types := tts, context := none, message := msg,
          suggestions := sg, category := cat, enabled := none }).priority =
          Priority.P2
    ∧ (fillRuleDefaults
        { rule_id := id, name := nm, description := ds, pattern := pat,
          pattern_type := none, severity := none, priority := none,
          tool_types := tts, context := none, message := msg,
          suggestions := sg, category := cat, enabled := none }).context =
          RuleContext.all
    ∧ (fillRuleDefaults
        { rule_id := id, name := nm, description := ds, pattern := pat,
          pattern_type := none, severity := none, priority := none,
          tool_types := tts, context := none, message := msg,
          suggestions := sg, category := cat, enabled := none }).enabled = true :=
  ⟨rfl, rfl, fun _ _ _ _ _ _ _ _ => ⟨rfl, rfl, rfl, rfl, rfl⟩⟩
